import Mathlib

/-!
Verification of the polling-and-delivery engine of the xitter-notify-server
repository. The Rust sources are embedded shallowly: `serde_json::Value`
becomes the inductive `Json` (numbers restricted to integers, which is all
the embedded code ever inspects), byte-level JSON parsing is abstracted away
(functions take the already-parsed tree), and the async delivery loop of
`poll_user` is modelled by an explicit delivery-outcome function.
String comparison in Lean (codepoint-lexicographic) agrees with Rust's
byte-wise `str` comparison on valid UTF-8, since UTF-8 preserves codepoint
order.
-/

/-- The parsed JSON tree (`serde_json::Value`); numbers are modelled as
integers, the only kind the embedded code distinguishes. -/
inductive Json where
  | null : Json
  | bool : Bool → Json
  | num : Int → Json
  | str : String → Json
  | arr : List Json → Json
  | obj : List (String × Json) → Json

/-- First-match lookup in a JSON object's field list (a parsed
`serde_json` map holds each key at most once). -/
def jsonLookup (key : String) : List (String × Json) → Option Json
  | [] => none
  | (k, v) :: rest => if k = key then some v else jsonLookup key rest

/-- `Value::get(key)`: `some` only on objects holding the key. -/
def Json.get (j : Json) (key : String) : Option Json :=
  match j with
  | .obj fields => jsonLookup key fields
  | _ => none

/-- `Value::as_str`. -/
def Json.asStr : Json → Option String
  | .str s => some s
  | _ => none

/-- `Value::as_array`. -/
def Json.asArr : Json → Option (List Json)
  | .arr xs => some xs
  | _ => none

/-- `Value::pointer` restricted to object-key path segments, the only kind
the embedded code uses. -/
def Json.getPath (j : Json) : List String → Option Json
  | [] => some j
  | k :: ks => (j.get k).bind (fun v => Json.getPath v ks)

/-- Lexicographic strict comparison of codepoint lists, the shape of Rust's
`str` ordering (byte order and codepoint order agree on valid UTF-8). -/
def charListLt : List Char → List Char → Bool
  | [], [] => false
  | [], _ :: _ => true
  | _ :: _, [] => false
  | c :: r, d :: s =>
    if c.toNat < d.toNat then true
    else if d.toNat < c.toNat then false
    else charListLt r s

/-- Rust `str` `<`. -/
def strLt (a b : String) : Bool := charListLt a.data b.data

/-- Rust `str` `<=`. -/
def strLe (a b : String) : Bool := !(strLt b a)

/-- One step of `str::starts_with`: does the pattern head a codepoint list. -/
def startsWithChars : List Char → List Char → Bool
  | _, [] => true
  | [], _ :: _ => false
  | c :: r, p :: q => c == p && startsWithChars r q

/-- Rust `str::starts_with` with a string pattern. -/
def strStartsWith (s pat : String) : Bool := startsWithChars s.data pat.data

/-- `Notification` (src/twitter.rs). -/
structure Notification where
  sort_index : String
  notification_type : String
  message : String
  icon_url : Option String
  url : Option String
  from_users : List String
deriving DecidableEq, Repr

/-- `TwitterError` (src/twitter.rs); payloads reduced to their message
strings. -/
inductive TwitterError where
  | Http : String → TwitterError
  | Parse : String → TwitterError
  | Api : String → TwitterError
deriving DecidableEq, Repr

/-- Codepoint-wise ASCII lowercasing: a model of Rust `str::to_lowercase`
valid only on ASCII input (full Unicode lowercasing, e.g. U+212A to `k`, is
not modelled; statements quantifying over all inputs abstract the
lowercasing instead, see `normalize_notification_type_with`). -/
def strToLower (s : String) : String := ⟨s.data.map Char.toLower⟩

/-- The match of `normalize_notification_type` (src/twitter.rs:362-370)
with the `to_lowercase` call abstracted into `lower`, so properties of the
match hold for Rust's full-Unicode lowercasing and not merely the ASCII
model. -/
def normalize_notification_type_with (lower : String → String)
    (notification_type : String) : String :=
  match lower notification_type with
  | "like" | "likes" | "liked" => "like"
  | "retweet" | "retweets" | "retweeted" => "retweet"
  | "reply" | "replies" | "replied" => "reply"
  | "mention" | "mentions" | "mentioned" => "mention"
  | "follow" | "follows" | "followed" => "follow"
  | "quote" | "quotes" | "quoted" => "quote"
  | other => other

/-- `normalize_notification_type` (src/twitter.rs:361-371), at the ASCII
lowercasing model (exact on the ASCII inputs the other claims evaluate). -/
def normalize_notification_type (notification_type : String) : String :=
  normalize_notification_type_with strToLower notification_type

/-- `extract_notification_message` (src/twitter.rs:300-324). -/
def extract_notification_message (item_content : Json) : String :=
  match (item_content.getPath ["message", "text"]).bind Json.asStr with
  | some message => message
  | none =>
    match (item_content.getPath ["header", "text"]).bind Json.asStr with
    | some header => header
    | none =>
      match (item_content.getPath
          ["tweet_results", "result", "legacy", "full_text"]).bind Json.asStr with
      | some text => text
      | none => "New notification"

/-- `extract_from_users` (src/twitter.rs:326-342). -/
def extract_from_users (item_content : Json) : List String :=
  match (item_content.get "fromUsers").bind Json.asArr with
  | none => []
  | some from_users =>
    from_users.filterMap
      (fun user => (user.getPath ["user_results", "result", "legacy", "name"]).bind Json.asStr)

/-- `extract_notification_url` (src/twitter.rs:344-359). -/
def extract_notification_url (item_content : Json) : Option String :=
  match (item_content.getPath ["url", "url"]).bind Json.asStr with
  | some url => some url
  | none =>
    match (item_content.getPath ["tweet_results", "result", "rest_id"]).bind Json.asStr with
    | some tweet_id => some ("https://x.com/i/status/" ++ tweet_id)
    | none => none

/-- `parse_notification_entry` (src/twitter.rs:266-298). -/
def parse_notification_entry (content : Json) (sort_index : String) : Option Notification :=
  match content.get "itemContent" with
  | none => none
  | some item_content =>
    let notification_type :=
      ((item_content.get "notificationType").bind Json.asStr).getD "unknown"
    let message := extract_notification_message item_content
    let from_users := extract_from_users item_content
    let url := extract_notification_url item_content
    let icon_url := (item_content.getPath ["icon", "iconUrl"]).bind Json.asStr
    some
      { sort_index := sort_index
        notification_type := normalize_notification_type notification_type
        message := message
        icon_url := icon_url
        url := url
        from_users := from_users }

/-- The top-level error check of `parse_notifications` (src/twitter.rs:199-207):
`some message` exactly when the payload holds a non-empty `errors` array. -/
def errorsCheck (json : Json) : Option String :=
  match json.get "errors" with
  | none => none
  | some errors =>
    match errors.asArr with
    | some (first_error :: _) =>
      some (((first_error.get "message").bind Json.asStr).getD "Unknown error")
    | _ => none

/-- The instruction-array navigation of `parse_notifications`
(src/twitter.rs:212-214). -/
def instructionsOf (json : Json) : Option (List Json) :=
  (json.getPath ["data", "user", "result", "timeline", "timeline", "instructions"]).bind
    Json.asArr

/-- The per-instruction step of `parse_notifications` (src/twitter.rs:221-228):
entries of an instruction of type `TimelineAddEntries`, nothing otherwise. -/
def entriesOfInstr (instruction : Json) : List Json :=
  if (instruction.get "type").bind Json.asStr = some "TimelineAddEntries" then
    ((instruction.get "entries").bind Json.asArr).getD []
  else
    []

/-- The loop body of `parse_notifications` over one entry
(src/twitter.rs:230-256): `continue` becomes `none`, a push becomes `some`. -/
def processEntry (entry : Json) : Option Notification :=
  let entry_id := ((entry.get "entryId").bind Json.asStr).getD ""
  if strStartsWith entry_id "cursor-" then none
  else
    let sort_index := ((entry.get "sortIndex").bind Json.asStr).getD ""
    if sort_index = "" then none
    else
      match entry.get "content" with
      | none => none
      | some content => parse_notification_entry content sort_index

/-- Stable descending insertion by `sort_index`: the new element goes in
front of the first element it compares greater-or-equal to, so earlier
elements precede equal later ones, matching Rust's stable `sort_by` with
comparator `b.sort_index.cmp(&a.sort_index)` (src/twitter.rs:261). -/
def insertDescBySortIndex (n : Notification) : List Notification → List Notification
  | [] => [n]
  | m :: rest =>
    if strLe m.sort_index n.sort_index then n :: m :: rest
    else m :: insertDescBySortIndex n rest

/-- The final sort of `parse_notifications` (src/twitter.rs:261): stable,
descending by `sort_index`. -/
def sortDescBySortIndex (l : List Notification) : List Notification :=
  l.foldr insertDescBySortIndex []

/-- `parse_notifications` (src/twitter.rs:194-264), from the parsed payload
tree. -/
def parse_notifications (json : Json) : Except TwitterError (List Notification) :=
  match errorsCheck json with
  | some message => .error (.Api message)
  | none =>
    match instructionsOf json with
    | none => .ok []
    | some instructions =>
      .ok (sortDescBySortIndex
        ((instructions.flatMap entriesOfInstr).filterMap processEntry))

/-- The kept-event filter of `poll_user` (src/poller.rs:88-97): keep events
whose `sort_index` compares strictly greater than the account's progress
marker; keep everything when the marker is absent. -/
def keepNew (last_notif_sort_index : Option String) (notifs : List Notification) :
    List Notification :=
  notifs.filter (fun n =>
    (last_notif_sort_index.map (fun last => strLt last n.sort_index)).getD true)

/-- The delivery loop of `poll_user` (src/poller.rs:110-117): every kept
event is attempted in order; a failed outcome is logged and the loop goes
on. `deliver` abstracts the outcome of `unified_push::send`. -/
def dispatchAll (deliver : Notification → Bool) : List Notification → List (Notification × Bool)
  | [] => []
  | n :: rest => (n, deliver n) :: dispatchAll deliver rest

/-- The running maximum of `Iterator::max_by` once seeded
(ties keep the later element, matching Rust). -/
def maxByGo (m : Notification) : List Notification → Notification
  | [] => m
  | n :: rest => maxByGo (if strLt n.sort_index m.sort_index then m else n) rest

/-- `max_by(|a, b| a.sort_index.cmp(&b.sort_index))` of src/poller.rs:120-122. -/
def maxBySortIndex : List Notification → Option Notification
  | [] => none
  | n :: rest => some (maxByGo n rest)

/-- What one `poll_user` pass does after the fetch: the delivery attempts
(in order, with their outcomes) and the progress-marker value written to the
store, if any. -/
structure PollOutcome where
  attempts : List (Notification × Bool)
  markerWrite : Option String
deriving DecidableEq, Repr

/-- Steps 3-5 of `poll_user` (src/poller.rs:88-127): filter against the
progress marker, early-return when nothing is new, attempt every kept event,
then write the maximal kept `sort_index` as the new marker. -/
def poll_user_deliver (deliver : Notification → Bool)
    (last_notif_sort_index : Option String) (notifs : List Notification) : PollOutcome :=
  let new_notifs := keepNew last_notif_sort_index notifs
  if new_notifs.isEmpty then { attempts := [], markerWrite := none }
  else
    { attempts := dispatchAll deliver new_notifs
      markerWrite := (maxBySortIndex new_notifs).map (fun newest => newest.sort_index) }

/-- `BadgeCount` (src/twitter.rs:73-80); both integer fields carry
`serde(default)`. -/
structure BadgeCount where
  ntab_unread_count : Int
  dm_unread_count : Int
deriving DecidableEq, Repr

/-- Reading one `#[serde(default)] i32` struct field: an absent key takes
the default 0, a present key must hold an in-range integer or
deserialization of the whole struct fails. -/
def readI32Field (fields : List (String × Json)) (key : String) : Except String Int :=
  match jsonLookup key fields with
  | none => .ok 0
  | some (.num n) =>
    if -2147483648 ≤ n ∧ n ≤ 2147483647 then .ok n else .error "i32 out of range"
  | some _ => .error "invalid type"

/-- Whether a `#[serde(default)] i32` field deserializes (absent, or a
well-typed in-range integer). -/
def i32FieldOk (fields : List (String × Json)) (key : String) : Bool :=
  match jsonLookup key fields with
  | none => true
  | some (.num n) => decide (-2147483648 ≤ n ∧ n ≤ 2147483647)
  | some _ => false

/-- Serde deserialization of `BadgeCount` from the parsed body, as
`serde_json::from_slice` performs it in `get_badge_count`
(src/twitter.rs:111-122): unknown fields are ignored, the struct must be a
JSON object. -/
def deserialize_badge_count (j : Json) : Except String BadgeCount :=
  match j with
  | .obj fields =>
    match readI32Field fields "ntab_unread_count" with
    | .error e => .error e
    | .ok ntab =>
      match readI32Field fields "dm_unread_count" with
      | .error e => .error e
      | .ok dm => .ok { ntab_unread_count := ntab, dm_unread_count := dm }
  | _ => .error "invalid type"

/-- `get_badge_count` (src/twitter.rs:111-122) after the transport call:
a deserialization failure becomes `TwitterError::Parse`. -/
def get_badge_count_pure (body : Json) : Except TwitterError BadgeCount :=
  match deserialize_badge_count body with
  | .ok bc => .ok bc
  | .error e => .error (.Parse e)

/-- `RateLimiter` (src/rate_limit.rs:8-12): per-address `(count, window
start)` buckets; addresses are opaque (`Nat` here), instants are seconds on
a monotonic clock. -/
structure RateLimiter where
  limits : List (Nat × Nat × Nat)
  max_requests : Nat
  window_secs : Nat
deriving DecidableEq, Repr

/-- `HashMap` lookup of one address's bucket. -/
def lookupBucket : List (Nat × Nat × Nat) → Nat → Option (Nat × Nat)
  | [], _ => none
  | (i, c, t) :: rest, ip => if i = ip then some (c, t) else lookupBucket rest ip

/-- Writing one address's bucket back (insert or overwrite). -/
def writeBucket : List (Nat × Nat × Nat) → Nat → Nat × Nat → List (Nat × Nat × Nat)
  | [], ip, e => [(ip, e.1, e.2)]
  | (i, c, t) :: rest, ip, e =>
    if i = ip then (ip, e.1, e.2) :: rest else (i, c, t) :: writeBucket rest ip e

/-- `RateLimiter::check` (src/rate_limit.rs:25-42) at time `now` (seconds):
fetch-or-create the bucket, reset it when its window has strictly expired,
refuse at the cap, otherwise count the request and admit it. -/
def RateLimiter.check (rl : RateLimiter) (ip : Nat) (now : Nat) : Bool × RateLimiter :=
  let entry := (lookupBucket rl.limits ip).getD (0, now)
  let entry := if now - entry.2 > rl.window_secs then (0, now) else entry
  if entry.1 ≥ rl.max_requests then
    (false, { rl with limits := writeBucket rl.limits ip entry })
  else
    (true, { rl with limits := writeBucket rl.limits ip (entry.1 + 1, entry.2) })

/-- A sequence of `check` calls for one address at the given times,
collecting the returned admission decisions. -/
def checkSeq (rl : RateLimiter) (ip : Nat) : List Nat → List Bool
  | [] => []
  | t :: ts =>
    let r := rl.check ip t
    r.1 :: checkSeq r.2 ip ts

/-- A concrete event with `sort_index` `"3"` for the worked poll example. -/
def notif3 : Notification := ⟨"3", "like", "m3", none, none, []⟩

/-- A concrete event with `sort_index` `"6"` for the worked poll example. -/
def notif6 : Notification := ⟨"6", "like", "m6", none, none, []⟩

/-- A concrete event with `sort_index` `"7"` for the worked poll example. -/
def notif7 : Notification := ⟨"7", "like", "m7", none, none, []⟩

/-- Every synonym recognized by `normalize_notification_type`
(src/twitter.rs:362-368), lower-cased as the match sees them. -/
def knownTypeSynonyms : List String :=
  ["like", "likes", "liked", "retweet", "retweets", "retweeted",
   "reply", "replies", "replied", "mention", "mentions", "mentioned",
   "follow", "follows", "followed", "quote", "quotes", "quoted"]

/-- A concrete timeline payload with one `TimelineAddEntries` instruction
holding one ordinary notification entry. -/
def samplePayload : Json :=
  .obj [("data", .obj [("user", .obj [("result", .obj [("timeline",
    .obj [("timeline", .obj [("instructions", .arr [.obj
      [("type", .str "TimelineAddEntries"),
       ("entries", .arr [.obj
         [("entryId", .str "notification-abc"),
          ("sortIndex", .str "9"),
          ("content", .obj [("itemContent", .obj [])])]])]])])])])])])]

/-- The one notification extracted from `samplePayload`. -/
def sampleNotification : Notification :=
  ⟨"9", "unknown", "New notification", none, none, []⟩

theorem charListLt_eq_true_iff : ∀ (a b : List Char), charListLt a b = true ↔ a < b
  | [], [] => by
    simp only [charListLt, Bool.false_eq_true, false_iff]
    intro h; cases h
  | [], d :: s => by
    simp only [charListLt, true_iff]
    exact List.Lex.nil
  | c :: r, [] => by
    simp only [charListLt, Bool.false_eq_true, false_iff]
    intro h; cases h
  | c :: r, d :: s => by
    simp only [charListLt]
    by_cases h1 : c.toNat < d.toNat
    · simp only [h1, if_true, true_iff]
      exact List.Lex.rel h1
    · by_cases h2 : d.toNat < c.toNat
      · simp only [h1, h2, if_false, if_true, Bool.false_eq_true, false_iff]
        intro h
        cases h with
        | cons htail => exact absurd h2 (Nat.lt_irrefl _)
        | rel hcd => exact h1 hcd
      · have hcd : c = d :=
          Char.eq_of_val_eq (UInt32.eq_of_toBitVec_eq (BitVec.eq_of_toNat_eq
            (Nat.le_antisymm (Nat.not_lt.mp h2) (Nat.not_lt.mp h1))))
        subst hcd
        simp only [h1, h2, if_false]
        rw [charListLt_eq_true_iff r s]
        constructor
        · exact fun h => List.Lex.cons h
        · intro h
          cases h with
          | cons htail => exact htail
          | rel hcc => exact absurd hcc (Nat.lt_irrefl _)

theorem strLt_eq_true_iff (a b : String) : strLt a b = true ↔ a < b := by
  rw [String.lt_iff_toList_lt]
  exact charListLt_eq_true_iff a.data b.data

theorem strLe_eq_true_iff (a b : String) : strLe a b = true ↔ a ≤ b := by
  simp only [strLe, Bool.not_eq_true', ← Bool.not_eq_true, strLt_eq_true_iff, not_lt]

theorem dispatchAll_map_fst (deliver : Notification → Bool) :
    ∀ l : List Notification, (dispatchAll deliver l).map Prod.fst = l
  | [] => rfl
  | n :: rest => by
    simp [dispatchAll, dispatchAll_map_fst deliver rest]

theorem maxByGo_spec :
    ∀ (l : List Notification) (m : Notification),
      maxByGo m l ∈ m :: l
      ∧ m.sort_index ≤ (maxByGo m l).sort_index
      ∧ ∀ x ∈ l, x.sort_index ≤ (maxByGo m l).sort_index
  | [], m => ⟨List.mem_cons_self m [], le_refl _, by simp⟩
  | n :: rest, m => by
    by_cases hlt : strLt n.sort_index m.sort_index = true
    · have key := maxByGo_spec rest m
      have hpick : maxByGo m (n :: rest) = maxByGo m rest := by
        simp only [maxByGo, if_pos hlt]
      have hnm : n.sort_index ≤ m.sort_index :=
        le_of_lt ((strLt_eq_true_iff _ _).mp hlt)
      rw [hpick]
      refine ⟨?_, key.2.1, ?_⟩
      · rcases List.mem_cons.mp key.1 with h | h
        · exact List.mem_cons.mpr (Or.inl h)
        · exact List.mem_cons.mpr (Or.inr (List.mem_cons.mpr (Or.inr h)))
      · intro x hx
        rcases List.mem_cons.mp hx with h | h
        · exact h ▸ le_trans hnm key.2.1
        · exact key.2.2 x h
    · have key := maxByGo_spec rest n
      have hpick : maxByGo m (n :: rest) = maxByGo n rest := by
        simp only [maxByGo, if_neg hlt]
      have hmn : m.sort_index ≤ n.sort_index :=
        le_of_not_lt ((not_congr (strLt_eq_true_iff n.sort_index m.sort_index)).mp hlt)
      rw [hpick]
      refine ⟨?_, le_trans hmn key.2.1, ?_⟩
      · rcases List.mem_cons.mp key.1 with h | h
        · exact List.mem_cons.mpr (Or.inr (List.mem_cons.mpr (Or.inl h)))
        · exact List.mem_cons.mpr (Or.inr (List.mem_cons.mpr (Or.inr h)))
      · intro x hx
        rcases List.mem_cons.mp hx with h | h
        · exact h ▸ key.2.1
        · exact key.2.2 x h

theorem mem_insertDescBySortIndex (a n : Notification) :
    ∀ l : List Notification, a ∈ insertDescBySortIndex n l ↔ a = n ∨ a ∈ l
  | [] => by simp [insertDescBySortIndex]
  | m :: rest => by
    simp only [insertDescBySortIndex]
    split
    · simp [List.mem_cons]
    · rw [List.mem_cons, mem_insertDescBySortIndex a n rest, List.mem_cons]
      tauto

theorem mem_sortDescBySortIndex (a : Notification) :
    ∀ l : List Notification, a ∈ sortDescBySortIndex l ↔ a ∈ l
  | [] => Iff.rfl
  | x :: xs => by
    have hstep : sortDescBySortIndex (x :: xs) =
        insertDescBySortIndex x (sortDescBySortIndex xs) := rfl
    rw [hstep, mem_insertDescBySortIndex, mem_sortDescBySortIndex a xs, List.mem_cons]

theorem processEntry_eq_some_imp (entry : Json) (n : Notification) :
    processEntry entry = some n →
    strStartsWith (((entry.get "entryId").bind Json.asStr).getD "") "cursor-" = false
    ∧ ((entry.get "sortIndex").bind Json.asStr).getD "" ≠ "" := by
  intro h
  simp only [processEntry] at h
  split at h
  · cases h
  · next h1 =>
    split at h
    · cases h
    · next h2 => exact ⟨Bool.of_not_eq_true h1, h2⟩

/-- Claim C1: in the per-account poll task an event is kept if and only if
its `sort_index` is strictly greater (lexicographically) than the account's
progress marker, and with no progress marker every extracted event is kept. -/
theorem keepNew_mem_iff :
    (∀ (last : String) (notifs : List Notification) (n : Notification),
      n ∈ keepNew (some last) notifs ↔ n ∈ notifs ∧ last < n.sort_index)
    ∧ ∀ notifs : List Notification, keepNew none notifs = notifs := by
  constructor
  · intro last notifs n
    simp [keepNew, List.mem_filter, strLt_eq_true_iff]
  · intro notifs
    simp [keepNew]

/-- Claim C2: every kept event is attempted in order no matter which
deliveries fail, and the marker written afterwards is the maximum
`sort_index` of the kept events when at least one was kept, while no marker
is written when none was. -/
theorem poll_user_deliver_spec :
    ∀ (deliver : Notification → Bool) (marker : Option String) (notifs : List Notification),
      (poll_user_deliver deliver marker notifs).attempts.map Prod.fst = keepNew marker notifs
      ∧ (keepNew marker notifs = [] →
          (poll_user_deliver deliver marker notifs).markerWrite = none)
      ∧ (keepNew marker notifs ≠ [] → ∃ top : String,
          (poll_user_deliver deliver marker notifs).markerWrite = some top
          ∧ top ∈ (keepNew marker notifs).map Notification.sort_index
          ∧ ∀ s ∈ (keepNew marker notifs).map Notification.sort_index, s ≤ top) := by
  intro deliver marker notifs
  cases hkept : keepNew marker notifs with
  | nil =>
    refine ⟨?_, fun _ => ?_, fun hne => absurd rfl hne⟩ <;>
      simp [poll_user_deliver, hkept]
  | cons k ks =>
    have hattempts : (poll_user_deliver deliver marker notifs).attempts
        = dispatchAll deliver (k :: ks) := by
      simp [poll_user_deliver, hkept]
    have hmarker : (poll_user_deliver deliver marker notifs).markerWrite
        = some (maxByGo k ks).sort_index := by
      simp [poll_user_deliver, hkept, maxBySortIndex]
    have key := maxByGo_spec ks k
    refine ⟨?_, ?_, ?_⟩
    · rw [hattempts, dispatchAll_map_fst]
    · intro h
      exact absurd h (List.cons_ne_nil k ks)
    · intro _
      refine ⟨(maxByGo k ks).sort_index, hmarker, ?_, ?_⟩
      · exact List.mem_map_of_mem Notification.sort_index key.1
      · intro s hs
        obtain ⟨x, hx, rfl⟩ := List.mem_map.mp hs
        rcases List.mem_cons.mp hx with h | h
        · exact h ▸ key.2.1
        · exact key.2.2 x h

/-- Claim C3: with progress marker `"5"` and extracted events with sort
indexes `{"3","6","7"}`, extraction orders them `7, 6, 3`, the kept set is
exactly `{7, 6}`, delivery is attempted in the order `7` then `6` whatever
each delivery's outcome, and the new marker written is `"7"`. -/
theorem poll_worked_example :
    ∀ deliver : Notification → Bool,
      sortDescBySortIndex [notif3, notif6, notif7] = [notif7, notif6, notif3]
      ∧ keepNew (some "5") [notif7, notif6, notif3] = [notif7, notif6]
      ∧ (poll_user_deliver deliver (some "5") [notif7, notif6, notif3]).attempts.map Prod.fst
          = [notif7, notif6]
      ∧ (poll_user_deliver deliver (some "5") [notif7, notif6, notif3]).markerWrite
          = some "7" :=
  fun _ => ⟨by decide, by decide, rfl, rfl⟩

/-- Claim C6: for every lowercasing function (so in particular Rust's full
Unicode `to_lowercase`), the normalization match sends every input whose
lower-casing is a known synonym to that synonym's canonical tag — all six
classes — and every input whose lower-casing matches no known synonym to
its lower-casing, never to a catch-all constant; at the ASCII model this
gives the claim's concrete instances `"Likes"`, `"liked"`, `"LIKE"` to
`"like"` and `"Spaces"` to `"spaces"`. -/
theorem normalize_notification_type_spec :
    normalize_notification_type "Likes" = "like"
    ∧ normalize_notification_type "liked" = "like"
    ∧ normalize_notification_type "LIKE" = "like"
    ∧ normalize_notification_type "Spaces" = "spaces"
    ∧ (∀ (lower : String → String) (s : String),
        (lower s ∈ ["like", "likes", "liked"] →
          normalize_notification_type_with lower s = "like")
        ∧ (lower s ∈ ["retweet", "retweets", "retweeted"] →
          normalize_notification_type_with lower s = "retweet")
        ∧ (lower s ∈ ["reply", "replies", "replied"] →
          normalize_notification_type_with lower s = "reply")
        ∧ (lower s ∈ ["mention", "mentions", "mentioned"] →
          normalize_notification_type_with lower s = "mention")
        ∧ (lower s ∈ ["follow", "follows", "followed"] →
          normalize_notification_type_with lower s = "follow")
        ∧ (lower s ∈ ["quote", "quotes", "quoted"] →
          normalize_notification_type_with lower s = "quote"))
    ∧ ∀ (lower : String → String) (s : String),
        lower s ∉ knownTypeSynonyms →
        normalize_notification_type_with lower s = lower s := by
  refine ⟨by decide, by decide, by decide, by decide, ?_, ?_⟩
  · intro lower s
    refine ⟨?_, ?_, ?_, ?_, ?_, ?_⟩ <;>
      · intro hs
        simp only [List.mem_cons, List.not_mem_nil, or_false] at hs
        rcases hs with h | h | h <;>
          · simp only [normalize_notification_type_with, h]
  · intro lower s hs
    simp only [knownTypeSynonyms, List.mem_cons, List.not_mem_nil, or_false, not_or] at hs
    simp only [normalize_notification_type_with]
    split
    all_goals simp_all

/-- Claim C9: with `max_requests = 5` and a 3600-second window, five `check`
calls for one address inside the window are admitted, the sixth is refused,
and a call after the window has elapsed is admitted again. -/
theorem rate_limiter_worked_example :
    checkSeq { limits := [], max_requests := 5, window_secs := 3600 } 0
        [0, 0, 0, 0, 0, 0, 3601]
      = [true, true, true, true, true, false, true] := by decide

theorem flatMap_entriesOfInstr_eq_nil :
    ∀ instrs : List Json,
      (∀ instr ∈ instrs, (instr.get "type").bind Json.asStr ≠ some "TimelineAddEntries") →
      instrs.flatMap entriesOfInstr = []
  | [], _ => rfl
  | i :: is, h => by
    have hi : entriesOfInstr i = [] := by
      unfold entriesOfInstr
      rw [if_neg (h i (List.mem_cons_self i is))]
    have hrest := flatMap_entriesOfInstr_eq_nil is (fun x hx => h x (List.mem_cons_of_mem i hx))
    simp [List.flatMap_cons, hi, hrest]

/-- Claim C4: a payload whose top-level `errors` array is non-empty makes
extraction fail with an API-error result carrying the first error's message
(the code substitutes "Unknown error" when the first error has no string
message field), regardless of any other content in the payload. -/
theorem parse_notifications_api_error :
    ∀ (json errors first_error : Json) (rest : List Json),
      json.get "errors" = some errors →
      errors.asArr = some (first_error :: rest) →
      parse_notifications json
        = .error (.Api (((first_error.get "message").bind Json.asStr).getD "Unknown error")) := by
  intro json errors first_error rest h1 h2
  have he : errorsCheck json
      = some (((first_error.get "message").bind Json.asStr).getD "Unknown error") := by
    simp only [errorsCheck, h1, h2]
  simp only [parse_notifications, he]

/-- Witness for C4 at a concrete error payload. -/
theorem parse_notifications_api_error_witness :
    parse_notifications (Json.obj [("errors", Json.arr [Json.obj [("message", Json.str "oops")]])])
      = .error (.Api "oops") :=
  parse_notifications_api_error
    (Json.obj [("errors", Json.arr [Json.obj [("message", Json.str "oops")]])])
    (Json.arr [Json.obj [("message", Json.str "oops")]])
    (Json.obj [("message", Json.str "oops")]) [] rfl rfl

/-- Claim C7: when the error check does not fire (the well-formed case) and
the instructions array is absent, or no instruction has the entry-adding
type, extraction succeeds with an empty sequence. -/
theorem parse_notifications_no_entries_ok :
    ∀ json : Json,
      errorsCheck json = none →
      (instructionsOf json = none
        ∨ ∀ instr ∈ (instructionsOf json).getD [],
            (instr.get "type").bind Json.asStr ≠ some "TimelineAddEntries") →
      parse_notifications json = .ok [] := by
  intro json he hins
  cases hio : instructionsOf json with
  | none => simp only [parse_notifications, he, hio]
  | some instructions =>
    rcases hins with h | h
    · rw [hio] at h
      cases h
    · rw [hio] at h
      simp only [Option.getD_some] at h
      have hflat := flatMap_entriesOfInstr_eq_nil instructions h
      simp only [parse_notifications, he, hio, hflat, List.filterMap_nil]
      rfl

/-- Witness for C7 at a concrete payload with no instructions. -/
theorem parse_notifications_no_entries_ok_witness :
    parse_notifications (Json.obj []) = .ok [] :=
  parse_notifications_no_entries_ok (Json.obj []) rfl (Or.inl rfl)

/-- Claim C8: every event in the extraction output originates from some
processed entry that produced it, and such an entry never has an id starting
with the cursor marker nor an absent or empty `sortIndex`; hence cursor
entries and sort-index-less entries never contribute an event. -/
theorem parse_notifications_output_origin :
    (∀ entry : Json,
      (strStartsWith (((entry.get "entryId").bind Json.asStr).getD "") "cursor-" = true
        ∨ ((entry.get "sortIndex").bind Json.asStr).getD "" = "") →
      processEntry entry = none)
    ∧ ∀ (json : Json) (notifs : List Notification) (n : Notification),
      parse_notifications json = .ok notifs →
      n ∈ notifs →
      ∃ entry ∈ ((instructionsOf json).getD []).flatMap entriesOfInstr,
        processEntry entry = some n
        ∧ strStartsWith (((entry.get "entryId").bind Json.asStr).getD "") "cursor-" = false
        ∧ ((entry.get "sortIndex").bind Json.asStr).getD "" ≠ "" := by
  constructor
  · intro entry h
    rcases h with hcur | hsi
    · simp only [processEntry]
      rw [if_pos hcur]
    · simp only [processEntry]
      by_cases hcur : strStartsWith (((entry.get "entryId").bind Json.asStr).getD "")
          "cursor-" = true
      · rw [if_pos hcur]
      · rw [if_neg hcur, if_pos hsi]
  intro json notifs n hok hmem
  simp only [parse_notifications] at hok
  split at hok
  · cases hok
  · split at hok
    · cases hok
      cases hmem
    · next instructions hio =>
      cases hok
      have hmem2 : n ∈ (instructions.flatMap entriesOfInstr).filterMap processEntry :=
        (mem_sortDescBySortIndex n _).mp hmem
      obtain ⟨entry, hentry, hpe⟩ := List.mem_filterMap.mp hmem2
      have hfacts := processEntry_eq_some_imp entry n hpe
      refine ⟨entry, ?_, hpe, hfacts.1, hfacts.2⟩
      rw [hio, Option.getD_some]
      exact hentry

/-- Witness for C8 at a concrete one-entry payload. -/
theorem parse_notifications_output_origin_witness :
    ∃ entry ∈ ((instructionsOf samplePayload).getD []).flatMap entriesOfInstr,
      processEntry entry = some sampleNotification
      ∧ strStartsWith (((entry.get "entryId").bind Json.asStr).getD "") "cursor-" = false
      ∧ ((entry.get "sortIndex").bind Json.asStr).getD "" ≠ "" :=
  parse_notifications_output_origin.2 samplePayload [sampleNotification] sampleNotification rfl
    (List.mem_cons_self _ _)

/-- Claim C10: an entry with a non-cursor id and a non-empty sort index that
lacks a `content` object, or whose content lacks an `itemContent` object,
contributes no event: the loop body yields nothing for it, so it is omitted
from the extraction output rather than becoming an event with defaults. -/
theorem processEntry_without_item_content :
    ∀ entry : Json,
      strStartsWith (((entry.get "entryId").bind Json.asStr).getD "") "cursor-" = false →
      ((entry.get "sortIndex").bind Json.asStr).getD "" ≠ "" →
      (entry.get "content" = none
        ∨ ∃ content, entry.get "content" = some content ∧ content.get "itemContent" = none) →
      processEntry entry = none := by
  intro entry h1 h2 h3
  have hc1 : ¬ (strStartsWith (((entry.get "entryId").bind Json.asStr).getD "") "cursor-"
      = true) := by
    rw [h1]
    exact Bool.false_ne_true
  simp only [processEntry]
  rw [if_neg hc1, if_neg h2]
  rcases h3 with hnone | ⟨content, hc, hic⟩
  · rw [hnone]
  · rw [hc]
    simp only [parse_notification_entry, hic]

/-- Witness for C10 at a concrete entry with no content object. -/
theorem processEntry_without_item_content_witness :
    processEntry (Json.obj [("entryId", Json.str "e1"), ("sortIndex", Json.str "5")]) = none :=
  processEntry_without_item_content _ rfl (by decide) (Or.inl rfl)

/-- Counterexample to claim C5 as stated: a present but non-integer
unread-count field does not default to 0 — deserialization of the whole
body fails and the badge-count operation returns a parse error. -/
theorem badge_count_unparseable_is_error :
    get_badge_count_pure (Json.obj [("ntab_unread_count", Json.str "soon")])
      = .error (.Parse "invalid type") := rfl

/-- Claim C5 as amended: when the unread-count field is absent (and the
rest of the object deserializes, keys being distinct as in any parsed JSON
object), the badge-count operation succeeds with a count of 0 — absence is
never an error; only a present, ill-typed field is. -/
theorem badge_count_absent_field_defaults_zero :
    ∀ fields : List (String × Json),
      (fields.map Prod.fst).Nodup →
      jsonLookup "ntab_unread_count" fields = none →
      i32FieldOk fields "dm_unread_count" = true →
      ∃ dm : Int,
        get_badge_count_pure (.obj fields)
          = .ok { ntab_unread_count := 0, dm_unread_count := dm } := by
  intro fields hnd hna hdm
  rcases hl : jsonLookup "dm_unread_count" fields with _ | v
  · refine ⟨0, ?_⟩
    simp only [get_badge_count_pure, deserialize_badge_count, readI32Field, hna, hl]
  · cases v with
    | num n =>
      have hrange : -2147483648 ≤ n ∧ n ≤ 2147483647 := by
        simp only [i32FieldOk, hl] at hdm
        exact of_decide_eq_true hdm
      refine ⟨n, ?_⟩
      simp only [get_badge_count_pure, deserialize_badge_count, readI32Field, hna, hl,
        if_pos hrange]
    | null => simp [i32FieldOk, hl] at hdm
    | bool b => simp [i32FieldOk, hl] at hdm
    | str s => simp [i32FieldOk, hl] at hdm
    | arr xs => simp [i32FieldOk, hl] at hdm
    | obj fs => simp [i32FieldOk, hl] at hdm

/-- Witness for the amended C5 at the empty body object. -/
theorem badge_count_absent_field_defaults_zero_witness :
    ∃ dm : Int,
      get_badge_count_pure (Json.obj [])
        = .ok { ntab_unread_count := 0, dm_unread_count := dm } :=
  badge_count_absent_field_defaults_zero [] (by simp) rfl rfl
